import Mathlib

/-!
Verification of the pywr recorder module (src/pywr/recorders/_recorders.pyx).

IEEE doubles are modelled shallowly by the type `Pywr.D`: a NaN, a finite
value carried as an exact rational, or a signed infinity.  Every concrete
value exercised by the claims is an exact decimal for which double
arithmetic is exact, so rational arithmetic agrees with the double
arithmetic performed by the source.  Numpy reductions are modelled as left
folds; for exact rationals this agrees with any summation order.
-/

set_option autoImplicit false

namespace Pywr

/-- Shallow model of an IEEE double: NaN, a finite (exact rational) value, or
a signed infinity. -/
inductive D where
  | nan : D
  | fin : ℚ → D
  | pinf : D
  | ninf : D
deriving DecidableEq, Repr

/-- True exactly for the NaN value (model of numpy.isnan). -/
def D.isNan : D → Bool
  | .nan => true
  | _ => false

/-- IEEE negation. -/
def dNeg : D → D
  | .nan => .nan
  | .fin q => .fin (-q)
  | .pinf => .ninf
  | .ninf => .pinf

/-- IEEE addition: NaN propagates, opposite infinities give NaN. -/
def dAdd : D → D → D
  | .nan, _ => .nan
  | _, .nan => .nan
  | .fin a, .fin b => .fin (a + b)
  | .pinf, .ninf => .nan
  | .ninf, .pinf => .nan
  | .pinf, _ => .pinf
  | _, .pinf => .pinf
  | .ninf, _ => .ninf
  | _, .ninf => .ninf

/-- IEEE subtraction, via negation. -/
def dSub (a b : D) : D := dAdd a (dNeg b)

/-- IEEE multiplication: NaN propagates, infinity times zero is NaN. -/
def dMul : D → D → D
  | .nan, _ => .nan
  | _, .nan => .nan
  | .fin a, .fin b => .fin (a * b)
  | .fin a, .pinf => if 0 < a then .pinf else if a < 0 then .ninf else .nan
  | .fin a, .ninf => if 0 < a then .ninf else if a < 0 then .pinf else .nan
  | .pinf, .fin b => if 0 < b then .pinf else if b < 0 then .ninf else .nan
  | .ninf, .fin b => if 0 < b then .ninf else if b < 0 then .pinf else .nan
  | .pinf, .pinf => .pinf
  | .pinf, .ninf => .ninf
  | .ninf, .pinf => .ninf
  | .ninf, .ninf => .pinf

/-- IEEE division.  (In the Cython source a zero double divisor raises
ZeroDivisionError before any C division happens, because the module is
compiled without the cdivision directive; callers model that check
explicitly, so the zero-divisor branch here follows IEEE for completeness.) -/
def dDiv : D → D → D
  | .nan, _ => .nan
  | _, .nan => .nan
  | .fin a, .fin b =>
      if b = 0 then (if a = 0 then .nan else if 0 < a then .pinf else .ninf)
      else .fin (a / b)
  | .fin _, .pinf => .fin 0
  | .fin _, .ninf => .fin 0
  | .pinf, .fin b => if b < 0 then .ninf else .pinf
  | .ninf, .fin b => if b < 0 then .pinf else .ninf
  | .pinf, .pinf => .nan
  | .pinf, .ninf => .nan
  | .ninf, .pinf => .nan
  | .ninf, .ninf => .nan

/-- Division of a double by a (C int) count, as in numpy mean: a zero count
produces NaN (0.0/0 arises only for the empty mean in the source). -/
def dDivNat (a : D) (n : Nat) : D :=
  if n = 0 then .nan
  else match a with
    | .nan => .nan
    | .fin q => .fin (q / (n : ℚ))
    | .pinf => .pinf
    | .ninf => .ninf

/-- IEEE strict greater-than: any comparison with NaN is false. -/
def dGt : D → D → Bool
  | .nan, _ => false
  | _, .nan => false
  | .fin a, .fin b => decide (b < a)
  | .pinf, .pinf => false
  | .pinf, _ => true
  | _, .pinf => false
  | .ninf, _ => false
  | _, .ninf => true

/-- IEEE strict less-than. -/
def dLt (a b : D) : Bool := dGt b a

/-- numpy maximum of two doubles: NaN propagates, otherwise the larger. -/
def dMaxNp (a b : D) : D := if a.isNan || b.isNan then .nan else if dGt b a then b else a

/-- numpy minimum of two doubles: NaN propagates, otherwise the smaller. -/
def dMinNp (a b : D) : D := if a.isNan || b.isNan then .nan else if dLt b a then b else a

/-- Total comparison used for sorting NaN-free data (median). -/
def dLe (a b : D) : Bool := !(dGt a b)

/-- Insertion step of the sort used by the median model. -/
def insertD (x : D) : List D → List D
  | [] => [x]
  | y :: ys => if dLe x y then x :: y :: ys else y :: insertD x ys

/-- Insertion sort over doubles (only applied to NaN-free data). -/
def sortD : List D → List D
  | [] => []
  | x :: xs => insertD x (sortD xs)

/-- Model of np.sum over a 1-D array: left fold from 0.0. -/
def npSum (vs : List D) : D := vs.foldl dAdd (D.fin 0)

/-- Model of np.product over a 1-D array: left fold from 1.0. -/
def npProduct (vs : List D) : D := vs.foldl dMul (D.fin 1)

/-- Model of np.mean over a 1-D array: sum divided by length (NaN on empty). -/
def npMean (vs : List D) : D := dDivNat (npSum vs) vs.length

/-- Model of np.max over a 1-D array: fails on an empty array, propagates NaN. -/
def npMax : List D → Except String D
  | [] => .error "zero-size array to reduction operation maximum"
  | x :: xs => .ok (xs.foldl dMaxNp x)

/-- Model of np.min over a 1-D array. -/
def npMin : List D → Except String D
  | [] => .error "zero-size array to reduction operation minimum"
  | x :: xs => .ok (xs.foldl dMinNp x)

/-- Model of np.median over a 1-D array: NaN if any entry is NaN (or empty),
otherwise the middle of the sorted data, averaging the two middles for even
length. -/
def npMedian (vs : List D) : D :=
  if vs.any D.isNan then .nan
  else if vs.isEmpty then .nan
  else
    let s := sortD vs
    let n := vs.length
    if n % 2 = 1 then s.getD (n / 2) .nan
    else dDivNat (dAdd (s.getD (n / 2 - 1) .nan) (s.getD (n / 2) .nan)) 2

/-- The AggFuncs enum of _recorders.pyx (lines 9-16). -/
inductive AggFuncs where
  | SUM | MIN | MAX | MEAN | MEDIAN | PRODUCT | CUSTOM
deriving DecidableEq, Repr

/-- The _agg_func_lookup dict (lines 17-25): a KeyError for unknown tokens is
an error result. -/
def aggFuncLookup (s : String) : Except String AggFuncs :=
  if s = "sum" then .ok .SUM
  else if s = "min" then .ok .MIN
  else if s = "max" then .ok .MAX
  else if s = "mean" then .ok .MEAN
  else if s = "median" then .ok .MEDIAN
  else if s = "product" then .ok .PRODUCT
  else if s = "custom" then .ok .CUSTOM
  else .error "KeyError"

/-- Shape-indexed numpy array value, used to model the rank-changing numpy
operations around Aggregator.aggregate_2d: an axis reduction lowers the rank
by one (a 1-D array reduced along axis 0 is a 0-d scalar), a custom callable
may return any rank, and only a 1-D result can be coerced to the declared
double[:] return type. -/
inductive NpArr where
  | scalar : D → NpArr
  | one : List D → NpArr
  | two : List (List D) → NpArr
deriving Repr

/-- Columns of a matrix held as a list of rows (faithful on rectangular
matrices, which is what numpy accepts). -/
def cols (m : List (List D)) : List (List D) :=
  (List.range (m.headD []).length).map (fun j => m.map (fun row => row.getD j D.nan))

/-- A built-in numpy reduction applied to a 1-D array (axis 0 not given a
CUSTOM function). -/
def npReduce1 (func : AggFuncs) (vs : List D) : Except String D :=
  match func with
  | .PRODUCT => .ok (npProduct vs)
  | .SUM => .ok (npSum vs)
  | .MAX => npMax vs
  | .MIN => npMin vs
  | .MEAN => .ok (npMean vs)
  | .MEDIAN => .ok (npMedian vs)
  | .CUSTOM => .error "custom functions are dispatched before npReduce1"

/-- Apply a fallible function to every element, failing on the first error
(the effect of mapping a raising reduction over the rows or columns). -/
def mapE {α β : Type} (f : α → Except String β) : List α → Except String (List β)
  | [] => .ok []
  | x :: xs => (f x).bind (fun y => (mapE f xs).map (fun ys => y :: ys))

/-- A built-in numpy reduction along an axis of an array: on a 1-D array axis
0 produces a 0-d scalar; on a 2-D array axis 0 reduces the columns and axis 1
reduces the rows; any other axis is out of bounds. -/
def npReduceArr (func : AggFuncs) (arr : NpArr) (axis : Nat) : Except String NpArr :=
  match arr with
  | .scalar _ => .error "axis out of bounds for 0-d array"
  | .one vs =>
      if axis = 0 then (npReduce1 func vs).map NpArr.scalar
      else .error "axis out of bounds for 1-d array"
  | .two m =>
      if axis = 0 then (mapE (npReduce1 func) (cols m)).map NpArr.one
      else if axis = 1 then (mapE (npReduce1 func) m).map NpArr.one
      else .error "axis out of bounds for 2-d array"

/-- Aggregator.aggregate_1d (lines 57-80).  `func` and `uf` model the _func
code and the _user_func callable of the Aggregator object: with ignore_nan
the NaN entries are filtered out first, then the selected reduction is
applied; the declared double return type means the result is a scalar. -/
def aggregate1d (func : AggFuncs) (uf : Option (List D → D)) (data : List D)
    (ignoreNan : Bool) : Except String D :=
  let values := if ignoreNan then data.filter (fun v => !v.isNan) else data
  match func with
  | .CUSTOM =>
      match uf with
      | some f => .ok (f values)
      | none => .error "TypeError: NoneType object is not callable"
  | f => npReduce1 f values

/-- Aggregator.aggregate_2d (lines 82-105).  The local `values` is declared
cdef double[:, :] (line 85).  With ignore_nan the right-hand side of line 88,
np.array(values)[~np.isnan(values)], is a 1-D array — boolean-mask indexing
flattens the matrix — and re-assigning it to the 2-D typed memoryview local
raises ValueError (buffer has wrong number of dimensions) immediately:
before any reduction runs, whatever the selected function, a CUSTOM callable
included.  With ignore_nan=false the selected reduction runs along the axis
(the CUSTOM callable receiving the matrix and the axis) and the result is
coerced to the declared double[:] return type, which only a 1-D result
survives. -/
def aggregate2d (func : AggFuncs) (uf : Option (NpArr → Nat → Except String NpArr))
    (data : List (List D)) (axis : Nat) (ignoreNan : Bool) : Except String (List D) :=
  if ignoreNan then
    .error "ValueError: Buffer has wrong number of dimensions (expected 2, got 1)"
  else
    let res : Except String NpArr :=
      match func with
      | .CUSTOM =>
          match uf with
          | some f => f (.two data) axis
          | none => .error "TypeError: NoneType object is not callable"
      | f => npReduceArr f (.two data) axis
    res.bind (fun r =>
      match r with
      | .one vs => .ok vs
      | _ => .error "cannot coerce result to a 1-D memoryview")

/-- Recorder.values (lines 172-173): the base implementation raises
NotImplementedError; concrete recorders are expected to override it. -/
def recorderValuesBase : Except String (List D) := .error "NotImplementedError"

/-- Recorder.aggregated_value (lines 168-170): applies the recorder's own
scenario Aggregator to values() via aggregate_1d(values).  The recorder's
ignore_nan flag is a field of the object but the call passes no ignore_nan
argument, so aggregate_1d runs with its default (False); the flag is
therefore an unused parameter here, exactly as in the source. -/
def recorderAggregatedValue (aggFunc : AggFuncs) (uf : Option (List D → D))
    (_ignoreNan : Bool) (values : Except String (List D)) : Except String D :=
  values.bind (fun vs => aggregate1d aggFunc uf vs false)

/-- Python max of three doubles (line 685): fold with strict greater-than
comparisons, keeping the earlier argument on ties or NaN comparisons. -/
def pyMax3 (a b c : D) : D :=
  if dGt c (if dGt b a then b else a) then c else (if dGt b a then b else a)

/-- One cell of FlowDurationCurveDeviationRecorder.finish (lines 677-687):
upper deviation (actual-upper)/upper, lower deviation (lower-actual)/lower,
overall max(udev, ldev, 0).  The module is compiled without cdivision, so a
zero double divisor raises ZeroDivisionError, caught to give NaN for the
cell; the first division runs first, so a zero upper target short-circuits
the lower one. -/
def devCell (actual ltrgt utrgt : D) : D :=
  if utrgt = D.fin 0 then D.nan
  else
    let udev := dDiv (dSub actual utrgt) utrgt
    if ltrgt = D.fin 0 then D.nan
    else
      let ldev := dDiv (dSub ltrgt actual) ltrgt
      pyMax3 udev ldev (D.fin 0)

/-- Entry (k, i) of a matrix held as a list of rows. -/
def getM (m : List (List D)) (k i : Nat) : D := (m.getD k []).getD i D.nan

/-- FlowDurationCurveDeviationRecorder.finish (lines 642-687), for the case
scenario=None (so j is the scenario combination's global id i): a matrix of
shape [lower.shape[0], ncomb]; a target with a single column (shape[1] == 1)
is broadcast to all scenarios (jl/ju = 0). -/
def fdcDeviations (ncomb : Nat) (fdc lower upper : List (List D)) : List (List D) :=
  let nl := (lower.headD []).length
  let nu := (upper.headD []).length
  (List.range lower.length).map (fun k =>
    (List.range ncomb).map (fun i =>
      let jl := if nl = 1 then 0 else i
      let ju := if nu = 1 then 0 else i
      devCell (getM fdc k i) (getM lower k jl) (getM upper k ju)))

/-- The elementwise update loop `for i in range(n): value[i] = f(value[i],
value2[i])` of AggregatedRecorder.values (lines 243-278): the result has
length n whatever the inputs, and out-of-range reads are modelled as NaN
(the theorems always supply vectors of length n). -/
def elemwise (n : Nat) (f : D → D → D) (a b : List D) : List D :=
  (List.range n).map (fun i => f (a.getD i D.nan) (b.getD i D.nan))

/-- AggregatedRecorder.values (lines 236-281): asserts a non-empty recorder
list, then combines the children's values() vectors elementwise per scenario:
PRODUCT folds from ones, SUM from zeros, MAX from -inf and MIN from +inf
(comparing with the IEEE greater/less-than of the source), MEAN sums from
zeros then divides by the recorder count, and any other code falls to the
stored recorder_agg_func callable applied to the stacked vectors with
axis=0 (None and hence a TypeError when no callable was stored). -/
def aggregatedRecorderValues (func : AggFuncs)
    (uf : Option (List (List D) → Nat → List D))
    (childVals : List (List D)) (n : Nat) : Except String (List D) :=
  if childVals.isEmpty then .error "AssertionError"
  else
    match func with
    | .PRODUCT => .ok (childVals.foldl (elemwise n dMul) (List.replicate n (D.fin 1)))
    | .SUM => .ok (childVals.foldl (elemwise n dAdd) (List.replicate n (D.fin 0)))
    | .MAX => .ok (childVals.foldl
        (elemwise n (fun a b => if dGt b a then b else a)) (List.replicate n D.ninf))
    | .MIN => .ok (childVals.foldl
        (elemwise n (fun a b => if dLt b a then b else a)) (List.replicate n D.pinf))
    | .MEAN => .ok ((childVals.foldl (elemwise n dAdd) (List.replicate n (D.fin 0))).map
        (fun v => dDivNat v childVals.length))
    | _ =>
        match uf with
        | some f => .ok (f childVals 0)
        | none => .error "TypeError: NoneType object is not callable"

/-- A value acceptable as an aggregation-function keyword: a string token or
a callable (modelled by its behaviour on stacked vectors with an axis). -/
inductive AggSpec where
  | named : String → AggSpec
  | callable : (List (List D) → Nat → List D) → AggSpec

/-- The recorder-aggregation part of AggregatedRecorder.__init__ (lines
217-228): agg_func = kwargs.pop('recorder_agg_func', kwargs.get('agg_func'));
a string is looked up in _agg_func_lookup, a callable is stored and the code
set to CUSTOM, anything else (in particular None, when neither keyword was
given) raises ValueError.  This runs before super().__init__, so the base
Recorder default ("mean") never applies to the recorder-combination
function. -/
def aggregatedRecorderInit (recorderAggFunc aggFunc : Option AggSpec) :
    Except String (AggFuncs × Option (List (List D) → Nat → List D)) :=
  let spec := recorderAggFunc.orElse (fun _ => aggFunc)
  match spec with
  | some (.named s) => (aggFuncLookup s).map (fun f => (f, none))
  | some (.callable f) => .ok (.CUSTOM, some f)
  | none => .error "ValueError: Unrecognised recorder aggregation function"

/-- NumpyArrayParameterRecorder.values (lines 966-969): the temporal
aggregator applied to the [timesteps, scenarios] buffer along axis 0 with
the recorder's ignore_nan flag. -/
def numpyArrayParameterValues (temporalFunc : AggFuncs) (ignoreNan : Bool)
    (data : List (List D)) : Except String (List D) :=
  aggregate2d temporalFunc none data 0 ignoreNan

/-- NumpyArrayIndexParameterRecorder (lines 984-1041) declares no values()
override (it builds a _temporal_aggregator but never uses it), so a call
dispatches to the base Recorder.values, which raises NotImplementedError;
the buffered [timesteps, scenarios] index data does not influence the
result. -/
def numpyArrayIndexParameterValues (_data : List (List Int)) : Except String (List D) :=
  recorderValuesBase

/-- MeanFlowNodeRecorder.after (lines 1263-1269): values[i] += flow[i] *
factor for every scenario combination i. -/
def meanFlowAfter (factor : ℚ) (flow vals : List ℚ) : List ℚ :=
  (List.range vals.length).map (fun i => vals.getD i 0 + flow.getD i 0 * factor)

/-- The finish() of MeanFlowNodeRecorder (1271-1275), DeficitFrequencyNode-
Recorder (1292-1296) and MeanParameterRecorder: values[i] /= nt, where nt is
the current timestep's index.  Division by a zero int raises
ZeroDivisionError (no cdivision directive). -/
def constantFinishDivide (nt : Nat) (vals : List ℚ) : Except String (List ℚ) :=
  if nt = 0 then .error "ZeroDivisionError"
  else .ok (vals.map (fun v => v / (nt : ℚ)))

/-- A full MeanFlowNodeRecorder run over the given per-timestep flow vectors:
reset zeroes the accumulator, each timestep folds in flow*factor, and finish
divides by the current timestep index.  Timestep indices are zero-based (the
time-series recorders write row ts._index of a buffer of length
len(timestepper)), and finish() runs while the final timestep is still
current, so after N after() calls nt = N - 1. -/
def runMeanFlow (factor : ℚ) (ncomb : Nat) (flows : List (List ℚ)) :
    Except String (List ℚ) :=
  let vals := flows.foldl (fun acc f => meanFlowAfter factor f acc)
    (List.replicate ncomb 0)
  constantFinishDivide (flows.length - 1) vals

/-- DeficitFrequencyNodeRecorder.after (lines 1282-1290): count the scenarios
where the flow misses max_flow by more than 1e-6 at this timestep. -/
def deficitFreqAfter (flow maxFlow vals : List ℚ) : List ℚ :=
  (List.range vals.length).map (fun i =>
    if 1 / 1000000 < |flow.getD i 0 - maxFlow.getD i 0| then vals.getD i 0 + 1
    else vals.getD i 0)

/-- A full DeficitFrequencyNodeRecorder run over per-timestep (flow,
max_flow) vector pairs, with the same zero-based nt at finish() as
runMeanFlow. -/
def runDeficitFrequency (ncomb : Nat) (steps : List (List ℚ × List ℚ)) :
    Except String (List ℚ) :=
  let vals := steps.foldl (fun acc p => deficitFreqAfter p.1 p.2 acc)
    (List.replicate ncomb 0)
  constantFinishDivide (steps.length - 1) vals

/-- State of AnnualCountIndexParameterRecorder (lines 1351-1406): per-scenario
count and per-scenario maximum of the current year, plus the tracked year
(a single int, shared by all scenarios). -/
structure ACState where
  count : List Int
  currentMax : List Int
  currentYear : Int
deriving DecidableEq, Repr

/-- AnnualCountIndexParameterRecorder.setup (1357-1359). -/
def annualCountSetup (ncomb : Nat) : ACState :=
  { count := List.replicate ncomb 0
    currentMax := List.replicate ncomb 0
    currentYear := 0 }

/-- AnnualCountIndexParameterRecorder.reset (1361-1364): zero the counts and
maxima and mark the year as -1 (no year seen yet). -/
def annualCountReset (st : ACState) : ACState :=
  { count := st.count.map (fun _ => 0)
    currentMax := st.currentMax.map (fun _ => 0)
    currentYear := -1 }

/-- AnnualCountIndexParameterRecorder.after (1366-1394): on a year change,
and provided at least one year has been run (tracked year not -1), increment
each scenario's count whose maximum met the threshold, then reset the maxima
and the tracked year; afterwards fold this timestep's parameter index of
each scenario into the per-year maximum. -/
def annualCountAfter (threshold : Int) (year : Int) (vals : List Int)
    (st : ACState) : ACState :=
  let st1 :=
    if year ≠ st.currentYear then
      let count1 :=
        if st.currentYear ≠ -1 then
          List.zipWith (fun c m => if threshold ≤ m then c + 1 else c)
            st.count st.currentMax
        else st.count
      { count := count1
        currentMax := st.currentMax.map (fun _ => 0)
        currentYear := year }
    else st
  { st1 with
    currentMax := List.zipWith (fun m v => if m < v then v else m) st1.currentMax vals }

/-- AnnualCountIndexParameterRecorder.finish (1396-1402): one final threshold
check for the in-progress year. -/
def annualCountFinish (threshold : Int) (st : ACState) : ACState :=
  { st with
    count := List.zipWith (fun c m => if threshold ≤ m then c + 1 else c)
      st.count st.currentMax }

/-- AnnualCountIndexParameterRecorder.values (1404-1405): the counts as
doubles. -/
def annualCountValues (st : ACState) : List ℚ := st.count.map (fun c => (c : ℚ))

/-- A run of the annual count recorder: one after() per (year, indices)
timestep. -/
def annualCountRun (threshold : Int) (steps : List (Int × List Int))
    (st : ACState) : ACState :=
  steps.foldl (fun s p => annualCountAfter threshold p.1 p.2 s) st

/-- Per-scenario state shared by the two rolling recorders: one column of the
circular buffer (a total map from position to sample), the write cursor, and
one column of the dense per-timestep output buffer.  Both recorders keep
these exact fields; the scenario loop of the source is factored out because
scenarios never interact. -/
structure RollState where
  mem : Nat → ℚ
  pos : Nat
  data : Nat → ℚ

/-- RollingWindowParameterRecorder.after (lines 1077-1096), one scenario, with
the temporal aggregator at its default (mean): write the current parameter
value at the cursor, aggregate memory[0:n] where n is timestep+1 while the
window is filling and the window size thereafter, store the aggregate in the
dense buffer row of this timestep, and advance the cursor modulo the
window. -/
def rwpAfter (w t : Nat) (v : ℚ) (st : RollState) : RollState :=
  let mem1 := fun p => if p = st.pos then v else st.mem p
  let n := if t < w then t + 1 else w
  let agg := ((List.range n).map mem1).sum / (n : ℚ)
  { mem := mem1
    pos := if w ≤ st.pos + 1 then 0 else st.pos + 1
    data := fun r => if r = t then agg else st.data r }

/-- RollingWindowParameterRecorder.setup (1066-1071): _memory is np.empty
(arbitrary contents g), the cursor starts at 0 and the dense buffer is
zeroed. -/
def rwpSetup (g : Nat → ℚ) : RollState :=
  { mem := g, pos := 0, data := fun _ => 0 }

/-- RollingWindowParameterRecorder.reset (1073-1075): zero the dense buffer
and the cursor; the circular buffer keeps its stale contents. -/
def rwpReset (st : RollState) : RollState :=
  { st with pos := 0, data := fun _ => 0 }

/-- Feed the samples to RollingWindowParameterRecorder.after in order,
starting at timestep index t. -/
def rwpRunFrom (w : Nat) : Nat → List ℚ → RollState → RollState
  | _, [], st => st
  | t, v :: rest, st => rwpRunFrom w (t + 1) rest (rwpAfter w t v st)

/-- RollingMeanFlowNodeRecorder.after (lines 1155-1174), one scenario: the
same circular-buffer recurrence as rwpAfter with the aggregate hard-coded to
np.mean; w is the resolved window (self.timesteps). -/
def rmfAfter (w t : Nat) (v : ℚ) (st : RollState) : RollState :=
  let mem1 := fun p => if p = st.pos then v else st.mem p
  let n := if t < w then t + 1 else w
  let meanFlow := ((List.range n).map mem1).sum / (n : ℚ)
  { mem := mem1
    pos := if w ≤ st.pos + 1 then 0 else st.pos + 1
    data := fun r => if r = t then meanFlow else st.data r }

/-- RollingMeanFlowNodeRecorder.setup (1145-1153): cursor 0, _memory zeroed,
_data is np.empty (arbitrary contents g). -/
def rmfSetup (g : Nat → ℚ) : RollState :=
  { mem := fun _ => 0, pos := 0, data := g }

/-- RollingMeanFlowNodeRecorder defines no reset(); the base Component.reset
cannot touch the cursor or buffers (they are cdef fields of this subclass),
so reset leaves the state unchanged. -/
def rmfReset (st : RollState) : RollState := st

/-- Feed the flows to RollingMeanFlowNodeRecorder.after in order, starting at
timestep index t. -/
def rmfRunFrom (w : Nat) : Nat → List ℚ → RollState → RollState
  | _, [], st => st
  | t, v :: rest, st => rmfRunFrom w (t + 1) rest (rmfAfter w t v st)

/-- The mean of the last min(t+1, w) samples ending at timestep t: what the
spec says a rolling recorder of window w stores at timestep t. -/
def windowMean (w t : Nat) (samples : List ℚ) : ℚ :=
  (∑ i ∈ Finset.Ico (t + 1 - w) (t + 1), samples.getD i 0) / ((min (t + 1) w : ℕ) : ℚ)

/-! ### General-purpose lemmas -/

theorem getD_range_map {α : Type} (g : Nat → α) (n i : Nat) (d : α) (h : i < n) :
    ((List.range n).map g).getD i d = g i := by
  rw [List.getD_eq_getElem?_getD, List.getElem?_map, List.getElem?_range h]
  rfl

theorem getD_map_fin (row : List ℚ) (i : Nat) (hi : i < row.length) :
    (row.map D.fin).getD i D.nan = D.fin (row.getD i 0) := by
  rw [List.getD_eq_getElem?_getD, List.getElem?_map, List.getElem?_eq_getElem hi,
    List.getD_eq_getElem?_getD, List.getElem?_eq_getElem hi]
  rfl

theorem mapE_ok {α β : Type} (f : α → Except String β) (g : α → β)
    (h : ∀ x, f x = .ok (g x)) : ∀ l : List α, mapE f l = .ok (l.map g) := by
  intro l
  induction l with
  | nil => rfl
  | cons x xs ih => simp [mapE, h, ih, Except.bind, Except.map]

theorem ite_lt_max (a b : ℚ) : (if a < b then b else a) = max a b := by
  rcases lt_or_le a b with h | h
  · simp [h, max_eq_right h.le]
  · simp [not_lt.mpr h, max_eq_left h]

theorem ite_lt_min (a b : ℚ) : (if b < a then b else a) = min a b := by
  rcases lt_or_le b a with h | h
  · simp [h, min_eq_right h.le]
  · simp [not_lt.mpr h, min_eq_left h]

theorem pyMax3_fin (a b c : ℚ) :
    pyMax3 (D.fin a) (D.fin b) (D.fin c) = D.fin (max (max a b) c) := by
  have h1 : (if dGt (D.fin b) (D.fin a) then D.fin b else D.fin a) = D.fin (max a b) := by
    simp only [dGt, decide_eq_true_eq]
    split_ifs with h
    · rw [max_eq_right h.le]
    · rw [max_eq_left (not_lt.mp h)]
  unfold pyMax3
  rw [h1]
  simp only [dGt, decide_eq_true_eq]
  split_ifs with h
  · rw [max_eq_right h.le]
  · rw [max_eq_left (not_lt.mp h)]

theorem devCell_fin (a l u : ℚ) (hl : l ≠ 0) (hu : u ≠ 0) :
    devCell (D.fin a) (D.fin l) (D.fin u)
      = D.fin (max (max ((a - u) / u) ((l - a) / l)) 0) := by
  simp only [devCell, D.fin.injEq, hu, hl, if_false, dSub, dNeg, dAdd, dDiv, pyMax3_fin]
  rw [← sub_eq_add_neg, ← sub_eq_add_neg]

theorem list_range_map_sum (n : Nat) (f : Nat → ℚ) :
    ((List.range n).map f).sum = ∑ p ∈ Finset.range n, f p := by
  induction n with
  | zero => simp
  | succ k ih => simp [List.range_succ, Finset.sum_range_succ, ih]

theorem aggregate2d_mean_axis0 (m : List (List D)) :
    aggregate2d .MEAN none m 0 false = .ok ((cols m).map npMean) := by
  show (Except.map NpArr.one (mapE (npReduce1 .MEAN) (cols m))).bind
      (fun r => match r with
        | .one vs => Except.ok vs
        | _ => Except.error "cannot coerce result to a 1-D memoryview") = _
  rw [mapE_ok (npReduce1 .MEAN) npMean (fun _ => rfl)]
  rfl

theorem aggregate2d_mean_axis1 (m : List (List D)) :
    aggregate2d .MEAN none m 1 false = .ok (m.map npMean) := by
  show (Except.map NpArr.one (mapE (npReduce1 .MEAN) m)).bind
      (fun r => match r with
        | .one vs => Except.ok vs
        | _ => Except.error "cannot coerce result to a 1-D memoryview") = _
  rw [mapE_ok (npReduce1 .MEAN) npMean (fun _ => rfl)]
  rfl

theorem replicate_eq_range_map {α : Type} (n : Nat) (x : α) :
    List.replicate n x = (List.range n).map (fun _ => x) := by
  induction n with
  | zero => rfl
  | succ k ih => rw [List.replicate_succ', List.range_succ, List.map_append, ih]; rfl

theorem getD_map_div (l : List ℚ) (c : ℚ) (i : Nat) (hi : i < l.length) :
    (l.map (fun v => v / c)).getD i 0 = l.getD i 0 / c := by
  rw [List.getD_eq_getElem?_getD, List.getElem?_map, List.getElem?_eq_getElem hi,
    List.getD_eq_getElem?_getD, List.getElem?_eq_getElem hi]
  rfl

theorem foldl_add_eq_sum {α : Type} (l : List α) (g : α → ℚ) :
    ∀ a : ℚ, l.foldl (fun s c => s + g c) a = a + (l.map g).sum := by
  induction l with
  | nil => intro a; simp
  | cons c cs ih => intro a; simp only [List.foldl_cons, List.map_cons, List.sum_cons, ih,
      add_assoc]

theorem foldl_mul_eq_prod {α : Type} (l : List α) (g : α → ℚ) :
    ∀ a : ℚ, l.foldl (fun s c => s * g c) a = a * (l.map g).prod := by
  induction l with
  | nil => intro a; simp
  | cons c cs ih => intro a; simp only [List.foldl_cons, List.map_cons, List.prod_cons, ih,
      mul_assoc]

theorem meanFlow_fold_eq (factor : ℚ) (flows : List (List ℚ)) :
    ∀ (n : Nat) (g : Nat → ℚ),
      flows.foldl (fun a f => meanFlowAfter factor f a) ((List.range n).map g)
        = (List.range n).map
            (fun i => g i + (flows.map (fun f => f.getD i 0 * factor)).sum) := by
  induction flows with
  | nil => intro n g; simp
  | cons f fs ih =>
      intro n g
      rw [List.foldl_cons]
      have h1 : meanFlowAfter factor f ((List.range n).map g)
          = (List.range n).map (fun i => g i + f.getD i 0 * factor) := by
        unfold meanFlowAfter
        rw [List.length_map, List.length_range]
        apply List.map_congr_left
        intro i hi
        rw [getD_range_map g n i 0 (List.mem_range.mp hi)]
      rw [h1, ih n (fun i => g i + f.getD i 0 * factor)]
      apply List.map_congr_left
      intro i hi
      simp only [List.map_cons, List.sum_cons]
      ring

theorem deficit_fold_eq (steps : List (List ℚ × List ℚ)) :
    ∀ (n : Nat) (g : Nat → ℚ),
      steps.foldl (fun a p => deficitFreqAfter p.1 p.2 a) ((List.range n).map g)
        = (List.range n).map (fun i => g i
            + (steps.map (fun p => if 1 / 1000000 < |p.1.getD i 0 - p.2.getD i 0|
                then (1 : ℚ) else 0)).sum) := by
  induction steps with
  | nil => intro n g; simp
  | cons p ps ih =>
      intro n g
      rw [List.foldl_cons]
      have h1 : deficitFreqAfter p.1 p.2 ((List.range n).map g)
          = (List.range n).map (fun i => g i
              + (if 1 / 1000000 < |p.1.getD i 0 - p.2.getD i 0| then (1 : ℚ) else 0)) := by
        unfold deficitFreqAfter
        rw [List.length_map, List.length_range]
        apply List.map_congr_left
        intro i hi
        rw [getD_range_map g n i 0 (List.mem_range.mp hi)]
        split_ifs <;> ring
      rw [h1, ih n _]
      apply List.map_congr_left
      intro i hi
      simp only [List.map_cons, List.sum_cons]
      ring

theorem foldl_elemwise_range (f : D → D → D) (n : Nat) (L : List (List D)) :
    ∀ g : Nat → D,
      L.foldl (elemwise n f) ((List.range n).map g)
        = (List.range n).map
            (fun i => L.foldl (fun x c => f x (c.getD i D.nan)) (g i)) := by
  induction L with
  | nil => intro g; simp
  | cons c L ih =>
      intro g
      rw [List.foldl_cons]
      have h1 : elemwise n f ((List.range n).map g) c
          = (List.range n).map (fun i => f (g i) (c.getD i D.nan)) := by
        unfold elemwise
        apply List.map_congr_left
        intro i hi
        rw [getD_range_map g n i D.nan (List.mem_range.mp hi)]
      rw [h1, ih (fun i => f (g i) (c.getD i D.nan))]
      rfl

theorem foldl_dAdd_fin {α : Type} (l : List α) (g : α → ℚ) :
    ∀ a : ℚ, l.foldl (fun x c => dAdd x (D.fin (g c))) (D.fin a)
      = D.fin (l.foldl (fun s c => s + g c) a) := by
  induction l with
  | nil => intro a; rfl
  | cons c cs ih =>
      intro a
      rw [List.foldl_cons, List.foldl_cons,
        show dAdd (D.fin a) (D.fin (g c)) = D.fin (a + g c) from rfl]
      exact ih (a + g c)

theorem foldl_dMul_fin {α : Type} (l : List α) (g : α → ℚ) :
    ∀ a : ℚ, l.foldl (fun x c => dMul x (D.fin (g c))) (D.fin a)
      = D.fin (l.foldl (fun s c => s * g c) a) := by
  induction l with
  | nil => intro a; rfl
  | cons c cs ih =>
      intro a
      rw [List.foldl_cons, List.foldl_cons,
        show dMul (D.fin a) (D.fin (g c)) = D.fin (a * g c) from rfl]
      exact ih (a * g c)

theorem foldl_dMaxGt_fin {α : Type} (l : List α) (g : α → ℚ) :
    ∀ a : ℚ, l.foldl (fun x c => if dGt (D.fin (g c)) x then D.fin (g c) else x) (D.fin a)
      = D.fin (l.foldl (fun m c => max m (g c)) a) := by
  induction l with
  | nil => intro a; rfl
  | cons c cs ih =>
      intro a
      rw [List.foldl_cons, List.foldl_cons]
      have h1 : (if dGt (D.fin (g c)) (D.fin a) then D.fin (g c) else D.fin a)
          = D.fin (max a (g c)) := by
        simp only [dGt, decide_eq_true_eq]
        split_ifs with h
        · rw [max_eq_right h.le]
        · rw [max_eq_left (not_lt.mp h)]
      rw [h1]
      exact ih (max a (g c))

theorem foldl_dMinLt_fin {α : Type} (l : List α) (g : α → ℚ) :
    ∀ a : ℚ, l.foldl (fun x c => if dLt (D.fin (g c)) x then D.fin (g c) else x) (D.fin a)
      = D.fin (l.foldl (fun m c => min m (g c)) a) := by
  induction l with
  | nil => intro a; rfl
  | cons c cs ih =>
      intro a
      rw [List.foldl_cons, List.foldl_cons]
      have h1 : (if dLt (D.fin (g c)) (D.fin a) then D.fin (g c) else D.fin a)
          = D.fin (min a (g c)) := by
        simp only [dLt, dGt, decide_eq_true_eq]
        split_ifs with h
        · rw [min_eq_right h.le]
        · rw [min_eq_left (not_lt.mp h)]
      rw [h1]
      exact ih (min a (g c))

theorem aggValues_SUM (uf : Option (List (List D) → Nat → List D)) (L : List (List D))
    (n : Nat) (hL : L.isEmpty = false) :
    aggregatedRecorderValues .SUM uf L n
      = .ok (L.foldl (elemwise n dAdd) (List.replicate n (D.fin 0))) := by
  simp [aggregatedRecorderValues, hL]

theorem aggValues_PRODUCT (uf : Option (List (List D) → Nat → List D)) (L : List (List D))
    (n : Nat) (hL : L.isEmpty = false) :
    aggregatedRecorderValues .PRODUCT uf L n
      = .ok (L.foldl (elemwise n dMul) (List.replicate n (D.fin 1))) := by
  simp [aggregatedRecorderValues, hL]

theorem aggValues_MEAN (uf : Option (List (List D) → Nat → List D)) (L : List (List D))
    (n : Nat) (hL : L.isEmpty = false) :
    aggregatedRecorderValues .MEAN uf L n
      = .ok ((L.foldl (elemwise n dAdd) (List.replicate n (D.fin 0))).map
          (fun v => dDivNat v L.length)) := by
  simp [aggregatedRecorderValues, hL]

theorem aggValues_MAX (uf : Option (List (List D) → Nat → List D)) (L : List (List D))
    (n : Nat) (hL : L.isEmpty = false) :
    aggregatedRecorderValues .MAX uf L n
      = .ok (L.foldl (elemwise n (fun a b => if dGt b a then b else a))
          (List.replicate n D.ninf)) := by
  simp [aggregatedRecorderValues, hL]

theorem aggValues_MIN (uf : Option (List (List D) → Nat → List D)) (L : List (List D))
    (n : Nat) (hL : L.isEmpty = false) :
    aggregatedRecorderValues .MIN uf L n
      = .ok (L.foldl (elemwise n (fun a b => if dLt b a then b else a))
          (List.replicate n D.pinf)) := by
  simp [aggregatedRecorderValues, hL]

theorem succ_mod_ite (L w : Nat) (hw : 0 < w) :
    (L + 1) % w = if w ≤ L % w + 1 then 0 else L % w + 1 := by
  have hr : L % w < w := Nat.mod_lt L hw
  have hd := Nat.div_add_mod L w
  by_cases h1 : w ≤ L % w + 1
  · rw [if_pos h1]
    have h2 : L % w + 1 = w := by omega
    have h3 : L + 1 = w * (L / w + 1) := by
      calc L + 1 = w * (L / w) + L % w + 1 := by rw [hd]
        _ = w * (L / w) + (L % w + 1) := by ring
        _ = w * (L / w) + w := by rw [h2]
        _ = w * (L / w + 1) := by rw [mul_add_one]
    rw [h3, Nat.mul_mod_right]
  · rw [if_neg h1]
    have h2 : L % w + 1 < w := by omega
    have h3 : L + 1 = (L % w + 1) + w * (L / w) := by
      calc L + 1 = w * (L / w) + L % w + 1 := by rw [hd]
        _ = (L % w + 1) + w * (L / w) := by ring
    rw [h3, Nat.add_mul_mod_self_left, Nat.mod_eq_of_lt h2]

theorem pred_mod_step (e w : Nat) (hw : 0 < w) (h : (e + 1) % w ≠ 0) :
    (e + 1) % w = e % w + 1 := by
  rw [succ_mod_ite e w hw] at h ⊢
  by_cases h1 : w ≤ e % w + 1
  · rw [if_pos h1] at h
    exact absurd rfl h
  · rw [if_neg h1]

theorem sub_mod_self_mod (L w : Nat) : (L - L % w) % w = 0 := by
  have hd := Nat.div_add_mod L w
  have h3 : L - L % w = w * (L / w) := Nat.sub_eq_of_eq_add hd.symm
  rw [h3, Nat.mul_mod_right]

theorem window_idx_partial (L w p : Nat) (hL : L < w) (hp : p ≤ L) :
    L - ((L - p) % w) = p := by
  rw [Nat.mod_eq_of_lt (by omega : L - p < w)]
  omega

theorem window_idx_step (L w p : Nat) (hw : 0 < w) (hpw : p < w) (hpL : p < L)
    (hne : p ≠ L % w) : L - ((L - p) % w) = (L - 1) - ((L - 1 - p) % w) := by
  have he : L - p = (L - 1 - p) + 1 := by omega
  have hne0 : (L - p) % w ≠ 0 := by
    intro h0
    obtain ⟨k, hk⟩ := Nat.dvd_of_mod_eq_zero h0
    have hL2 : p + (L - p) = L := Nat.add_sub_cancel' hpL.le
    rw [hk] at hL2
    apply hne
    rw [← hL2, Nat.add_mul_mod_self_left, Nat.mod_eq_of_lt hpw]
  rw [he] at hne0 ⊢
  rw [pred_mod_step (L - 1 - p) w hw hne0]
  have hm : (L - 1 - p) % w ≤ L - 1 - p := Nat.mod_le _ _
  omega

theorem window_idx_mod (L w p : Nat) (hp : p < w) (hpL : p ≤ L) :
    (L - ((L - p) % w)) % w = p := by
  have hd := Nat.div_add_mod (L - p) w
  have h1 : L - (L - p) % w = p + w * ((L - p) / w) := by
    refine Nat.sub_eq_of_eq_add ?_
    calc L = p + (L - p) := by omega
      _ = p + (w * ((L - p) / w) + (L - p) % w) := by rw [hd]
      _ = (p + w * ((L - p) / w)) + (L - p) % w := by ring
  rw [h1, Nat.add_mul_mod_self_left, Nat.mod_eq_of_lt hp]

theorem window_idx_inv (L w i : Nat) (hwL : w ≤ L)
    (h1 : L + 1 - w ≤ i) (h2 : i ≤ L) :
    L - ((L - i % w) % w) = i := by
  have hd := Nat.div_add_mod i w
  have hLi : L - i < w := by omega
  have h3 : L - i % w = (L - i) + w * (i / w) := by
    refine Nat.sub_eq_of_eq_add ?_
    calc L = (L - i) + i := by omega
      _ = (L - i) + (w * (i / w) + i % w) := by rw [hd]
      _ = ((L - i) + w * (i / w)) + i % w := by ring
  rw [h3, Nat.add_mul_mod_self_left, Nat.mod_eq_of_lt hLi]
  omega

theorem sum_window_reindex (w L : Nat) (hw : 0 < w) (hwL : w ≤ L) (f : Nat → ℚ) :
    ∑ p ∈ Finset.range w, f (L - ((L - p) % w))
      = ∑ i ∈ Finset.Ico (L + 1 - w) (L + 1), f i := by
  refine Finset.sum_nbij' (fun p => L - ((L - p) % w)) (fun i => i % w) ?_ ?_ ?_ ?_ ?_
  · intro p hp
    rw [Finset.mem_Ico]
    show L + 1 - w ≤ L - (L - p) % w ∧ L - (L - p) % w < L + 1
    have hm : (L - p) % w < w := Nat.mod_lt _ hw
    omega
  · intro i _
    rw [Finset.mem_range]
    show i % w < w
    exact Nat.mod_lt _ hw
  · intro p hp
    rw [Finset.mem_range] at hp
    exact window_idx_mod L w p hp (by omega)
  · intro i hi
    rw [Finset.mem_Ico] at hi
    exact window_idx_inv L w i hwL hi.1 (by omega)
  · intro p _
    rfl

/-- Core invariant of the circular-buffer recurrence: running the remaining
samples from a state whose cursor, buffer contents and already-written rows
agree with a processed history h fills every row t of the dense buffer with
the mean of the last min(t+1, w) samples. -/
theorem rwpRunFrom_data (w : Nat) (hw : 0 < w) (samples : List ℚ) :
    ∀ (suf h : List ℚ) (st : RollState),
      samples = h ++ suf →
      st.pos = h.length % w →
      (∀ p, p < w → p < h.length →
        st.mem p = samples.getD ((h.length - 1) - ((h.length - 1 - p) % w)) 0) →
      (∀ t, t < h.length → st.data t = windowMean w t samples) →
      ∀ t, t < samples.length →
        (rwpRunFrom w h.length suf st).data t = windowMean w t samples := by
  intro suf
  induction suf with
  | nil =>
      intro h st hs hpos hmem hdata t ht
      have hlen : samples.length = h.length := by rw [hs, List.append_nil]
      exact hdata t (hlen ▸ ht)
  | cons v rest ih =>
      intro h st hs hpos hmem hdata t ht
      have hL : (h ++ [v]).length = h.length + 1 := by simp
      have hgv : samples.getD h.length 0 = v := by
        rw [hs, List.getD_eq_getElem?_getD, List.getElem?_append_right (le_refl h.length)]
        simp
      have hmem1 : ∀ p, p < w → p < h.length + 1 →
          (rwpAfter w h.length v st).mem p
            = samples.getD (h.length - ((h.length - p) % w)) 0 := by
        intro p hpw hpL1
        have hmemdef : (rwpAfter w h.length v st).mem p
            = if p = st.pos then v else st.mem p := rfl
        by_cases hp : p = st.pos
        · rw [hmemdef, if_pos hp, show h.length - p = h.length - h.length % w by
            rw [hp, hpos], sub_mod_self_mod, Nat.sub_zero, hgv]
        · have hpL : p < h.length := by
            rcases Nat.lt_or_ge p h.length with h2 | h2
            · exact h2
            · exfalso
              have hpe : p = h.length := by omega
              have hlw : h.length < w := hpe ▸ hpw
              exact hp (by rw [hpos, Nat.mod_eq_of_lt hlw]; exact hpe)
          have hne : p ≠ h.length % w := by rw [← hpos]; exact hp
          rw [hmemdef, if_neg hp, hmem p hpw hpL,
            window_idx_step h.length w p hw hpw hpL hne]
      have hpos1 : (rwpAfter w h.length v st).pos = (h.length + 1) % w := by
        rw [show (rwpAfter w h.length v st).pos
          = if w ≤ st.pos + 1 then 0 else st.pos + 1 from rfl, hpos]
        exact (succ_mod_ite h.length w hw).symm
      have hdata1 : ∀ t2, t2 < h.length + 1 →
          (rwpAfter w h.length v st).data t2 = windowMean w t2 samples := by
        intro t2 ht2
        have hdd : (rwpAfter w h.length v st).data t2
            = if t2 = h.length then
                (((List.range (if h.length < w then h.length + 1 else w)).map
                  (rwpAfter w h.length v st).mem).sum
                  / ((if h.length < w then h.length + 1 else w : ℕ) : ℚ))
              else st.data t2 := rfl
        by_cases he : t2 = h.length
        · rw [hdd, if_pos he, he, list_range_map_sum]
          unfold windowMean
          by_cases h1 : h.length < w
          · have hmin : min (h.length + 1) w = h.length + 1 := by omega
            have hio : h.length + 1 - w = 0 := by omega
            simp only [if_pos h1]
            rw [hmin, hio, ← Finset.range_eq_Ico]
            congr 1
            apply Finset.sum_congr rfl
            intro p hp
            rw [Finset.mem_range] at hp
            rw [hmem1 p (by omega) (by omega),
              window_idx_partial h.length w p h1 (by omega)]
          · have hw2 : w ≤ h.length := not_lt.mp h1
            have hmin : min (h.length + 1) w = w := by omega
            simp only [if_neg h1]
            rw [hmin]
            congr 1
            rw [← sum_window_reindex w h.length hw hw2 (fun i => samples.getD i 0)]
            apply Finset.sum_congr rfl
            intro p hp
            rw [Finset.mem_range] at hp
            rw [hmem1 p (by omega) (by omega)]
        · rw [hdd, if_neg he]
          exact hdata t2 (by omega)
      have happ := ih (h ++ [v]) (rwpAfter w h.length v st)
        (by rw [hs]; simp)
        (by rw [hL]; exact hpos1)
        (fun p hpw hp => by
          rw [hL] at hp
          have h2 := hmem1 p hpw hp
          rw [hL]
          simpa using h2)
        (fun t2 ht2 => by
          rw [hL] at ht2
          exact hdata1 t2 ht2)
        t ht
      rw [hL] at happ
      exact happ

/-- The two rolling recorders run the same per-scenario recurrence. -/
theorem rmfAfter_eq_rwpAfter : @rmfAfter = @rwpAfter := rfl

theorem rmfRunFrom_eq_rwpRunFrom (w : Nat) :
    ∀ (l : List ℚ) (t : Nat) (st : RollState),
      rmfRunFrom w t l st = rwpRunFrom w t l st := by
  intro l
  induction l with
  | nil => intro t st; rfl
  | cons v rest ih =>
      intro t st
      rw [show rmfRunFrom w t (v :: rest) st
          = rmfRunFrom w (t + 1) rest (rmfAfter w t v st) from rfl,
        show rwpRunFrom w t (v :: rest) st
          = rwpRunFrom w (t + 1) rest (rwpAfter w t v st) from rfl,
        rmfAfter_eq_rwpAfter]
      exact ih (t + 1) (rwpAfter w t v st)

/-! ### Claims -/

/-- C2 counterexample: with ignore_nan=true, aggregate_2d on the 2-by-2
matrix [[1,2],[3,4]] along axis 0 does not return the per-column vector
[2,3]: the boolean NaN mask flattens the matrix to 1-D, and re-assigning
that array to the cdef double[:, :] local at line 88 raises ValueError
before any reduction runs.  With ignore_nan=false the same call does
return [2,3]. -/
theorem C2_counterexample_2d_ignore_nan_flattens :
    aggregate2d .MEAN none [[D.fin 1, D.fin 2], [D.fin 3, D.fin 4]] 0 true
      = .error "ValueError: Buffer has wrong number of dimensions (expected 2, got 1)"
  ∧ aggregate2d .MEAN none [[D.fin 1, D.fin 2], [D.fin 3, D.fin 4]] 0 true
      ≠ .ok [D.fin 2, D.fin 3]
  ∧ aggregate2d .MEAN none [[D.fin 1, D.fin 2], [D.fin 3, D.fin 4]] 0 false
      = .ok [D.fin 2, D.fin 3] := by
  have h1 : aggregate2d .MEAN none [[D.fin 1, D.fin 2], [D.fin 3, D.fin 4]] 0 true
      = .error "ValueError: Buffer has wrong number of dimensions (expected 2, got 1)" := rfl
  refine ⟨h1, by rw [h1]; simp, ?_⟩
  rw [aggregate2d_mean_axis0]
  norm_num [cols, npMean, npSum, dDivNat, dAdd, List.range_succ]

/-- C2 amended: aggregate_1d with ignore_nan=true removes the NaN entries
before reducing and returns a scalar (mean of [1, NaN, 3] is 2, and NaN with
ignore_nan=false); aggregate_2d returns a vector with one entry per element
of the other axis only when ignore_nan=false — with ignore_nan=true the NaN
mask flattens the matrix to 1-D and the re-assignment to the 2-D typed
memoryview local raises ValueError before any reduction runs, for every
aggregation function, a custom callable included. -/
theorem C2_aggregator_shape_contract :
    aggregate1d .MEAN none [D.fin 1, D.nan, D.fin 3] true = .ok (D.fin 2)
  ∧ aggregate1d .MEAN none [D.fin 1, D.nan, D.fin 3] false = .ok D.nan
  ∧ (∀ (m : List (List D)) (r : List D) (ncols : Nat), r ∈ m → m.headD [] = r →
      (∀ row ∈ m, row.length = ncols) →
      ∃ vs : List D, aggregate2d .MEAN none m 0 false = .ok vs ∧ vs.length = ncols)
  ∧ (∀ (m : List (List D)) (axis : Nat) (f : AggFuncs)
      (uf : Option (NpArr → Nat → Except String NpArr)),
      aggregate2d f uf m axis true
        = .error "ValueError: Buffer has wrong number of dimensions (expected 2, got 1)") := by
  refine ⟨?_, rfl, ?_, fun m axis f uf => rfl⟩
  · show Except.ok (npMean [D.fin 1, D.fin 3]) = _
    norm_num [npMean, npSum, dDivNat, dAdd]
  · intro m r ncols hr hhead hlen
    refine ⟨(cols m).map npMean, aggregate2d_mean_axis0 m, ?_⟩
    rw [List.length_map]
    unfold cols
    rw [List.length_map, List.length_range, hhead]
    exact hlen r hr

/-- C3: at finish() the deviation recorder computes, for every percentile k
and scenario i (with single-column targets broadcast to all scenarios),
deviation[k,i] = max((actual-upper)/upper, (lower-actual)/lower, 0) when
both targets are nonzero, and NaN for that single cell when either target is
zero (the ZeroDivisionError raised by the checked double division is caught
per cell), every other cell still being computed. -/
theorem C3_fdc_deviation_formula (ncomb : Nat) (fdc lower upper : List (List D))
    (k i : Nat) (hk : k < lower.length) (hi : i < ncomb) (a l u : ℚ)
    (ha : getM fdc k i = D.fin a)
    (hl : getM lower k (if (lower.headD []).length = 1 then 0 else i) = D.fin l)
    (hu : getM upper k (if (upper.headD []).length = 1 then 0 else i) = D.fin u) :
    getM (fdcDeviations ncomb fdc lower upper) k i
      = if u = 0 ∨ l = 0 then D.nan
        else D.fin (max (max ((a - u) / u) ((l - a) / l)) 0) := by
  show ((fdcDeviations ncomb fdc lower upper).getD k []).getD i D.nan = _
  simp only [fdcDeviations]
  rw [getD_range_map _ _ _ _ hk, getD_range_map _ _ _ _ hi, ha, hl, hu]
  rcases eq_or_ne u 0 with hu0 | hu0
  · subst hu0
    simp [devCell]
  · rcases eq_or_ne l 0 with hl0 | hl0
    · subst hl0
      simp [devCell, hu0]
    · simp [hu0, hl0, devCell_fin a l u hl0 hu0]

/-- C3 witness: actual=10 between targets 8 and 12 deviates 0; actual=15
deviates (15-12)/12 = 1/4; actual=5 deviates (8-5)/8 = 3/8; an upper target
of 0 gives NaN for that cell while the other cells are still computed. -/
theorem C3_fdc_deviation_witness :
    getM (fdcDeviations 1 [[D.fin 10], [D.fin 15], [D.fin 5], [D.fin 5]]
      [[D.fin 8], [D.fin 8], [D.fin 8], [D.fin 8]]
      [[D.fin 12], [D.fin 12], [D.fin 12], [D.fin 0]]) 0 0 = D.fin 0
  ∧ getM (fdcDeviations 1 [[D.fin 10], [D.fin 15], [D.fin 5], [D.fin 5]]
      [[D.fin 8], [D.fin 8], [D.fin 8], [D.fin 8]]
      [[D.fin 12], [D.fin 12], [D.fin 12], [D.fin 0]]) 1 0 = D.fin (1 / 4)
  ∧ getM (fdcDeviations 1 [[D.fin 10], [D.fin 15], [D.fin 5], [D.fin 5]]
      [[D.fin 8], [D.fin 8], [D.fin 8], [D.fin 8]]
      [[D.fin 12], [D.fin 12], [D.fin 12], [D.fin 0]]) 2 0 = D.fin (3 / 8)
  ∧ getM (fdcDeviations 1 [[D.fin 10], [D.fin 15], [D.fin 5], [D.fin 5]]
      [[D.fin 8], [D.fin 8], [D.fin 8], [D.fin 8]]
      [[D.fin 12], [D.fin 12], [D.fin 12], [D.fin 0]]) 3 0 = D.nan := by
  have hform := C3_fdc_deviation_formula 1
    [[D.fin 10], [D.fin 15], [D.fin 5], [D.fin 5]]
    [[D.fin 8], [D.fin 8], [D.fin 8], [D.fin 8]]
    [[D.fin 12], [D.fin 12], [D.fin 12], [D.fin 0]]
  refine ⟨?_, ?_, ?_, ?_⟩
  · rw [hform 0 0 (by norm_num) (by norm_num) 10 8 12 rfl rfl rfl]
    norm_num [max_def]
  · rw [hform 1 0 (by norm_num) (by norm_num) 15 8 12 rfl rfl rfl]
    norm_num [max_def]
  · rw [hform 2 0 (by norm_num) (by norm_num) 5 8 12 rfl rfl rfl]
    norm_num [max_def]
  · rw [hform 3 0 (by norm_num) (by norm_num) 5 8 0 rfl rfl rfl]
    norm_num

/-- C8: NumpyArrayIndexParameterRecorder has a filled [timesteps, scenarios]
buffer but no values() override, so values() and hence aggregated_value()
raise NotImplementedError instead of exposing a temporally-aggregated
per-scenario vector; its sibling NumpyArrayParameterRecorder does return the
temporal mean per scenario for the same data. -/
theorem C8_index_recorder_values_not_implemented :
    numpyArrayIndexParameterValues [[1, 0], [2, 1]] = .error "NotImplementedError"
  ∧ recorderAggregatedValue .MEAN none false (numpyArrayIndexParameterValues [[1, 0], [2, 1]])
      = .error "NotImplementedError"
  ∧ numpyArrayParameterValues .MEAN false [[D.fin 1, D.fin 0], [D.fin 2, D.fin 1]]
      = .ok [D.fin (3 / 2), D.fin (1 / 2)] := by
  refine ⟨rfl, rfl, ?_⟩
  rw [numpyArrayParameterValues, aggregate2d_mean_axis0]
  norm_num [cols, npMean, npSum, dDivNat, dAdd, List.range_succ]

/-- C9: aggregated_value always applies the scenario aggregation with NaN
filtering disabled, whatever the recorder's ignore_nan flag: the result
agrees with the flag-false call for every flag value, and a NaN entry in
values() propagates through mean and sum aggregation even with the flag set,
although aggregate_1d with filtering enabled would give 2. -/
theorem C9_aggregated_value_ignores_nan_flag :
    (∀ (f : AggFuncs) (uf : Option (List D → D)) (ig : Bool)
      (vs : Except String (List D)),
      recorderAggregatedValue f uf ig vs = recorderAggregatedValue f uf false vs)
  ∧ recorderAggregatedValue .MEAN none true (.ok [D.fin 1, D.nan, D.fin 3]) = .ok D.nan
  ∧ recorderAggregatedValue .SUM none true (.ok [D.fin 1, D.nan, D.fin 3]) = .ok D.nan
  ∧ aggregate1d .MEAN none [D.fin 1, D.nan, D.fin 3] true = .ok (D.fin 2) := by
  refine ⟨fun _ _ _ _ => rfl, rfl, rfl, ?_⟩
  show Except.ok (npMean [D.fin 1, D.fin 3]) = _
  norm_num [npMean, npSum, dDivNat, dAdd]

/-- C2 witness: the amended shape contract at concrete inputs — the
ignore_nan=false call on [[1,2],[3,4]] returns a length-2 vector, and the
ignore_nan=true call raises the dimension-mismatch ValueError both for a
built-in reduction and with a custom callable installed. -/
theorem C2_aggregator_shape_contract_witness :
    (∃ vs : List D, aggregate2d .MEAN none [[D.fin 1, D.fin 2], [D.fin 3, D.fin 4]] 0 false
        = .ok vs ∧ vs.length = 2)
  ∧ aggregate2d .SUM none [[D.fin 1, D.nan]] 0 true
      = .error "ValueError: Buffer has wrong number of dimensions (expected 2, got 1)"
  ∧ aggregate2d .CUSTOM (some (fun a _ => .ok a)) [[D.fin 1, D.nan]] 0 true
      = .error "ValueError: Buffer has wrong number of dimensions (expected 2, got 1)" := by
  refine ⟨?_, ?_, ?_⟩
  · exact C2_aggregator_shape_contract.2.2.1 [[D.fin 1, D.fin 2], [D.fin 3, D.fin 4]]
      [D.fin 1, D.fin 2] 2 (by simp) rfl (by simp)
  · exact C2_aggregator_shape_contract.2.2.2 [[D.fin 1, D.nan]] 0 AggFuncs.SUM none
  · exact C2_aggregator_shape_contract.2.2.2 [[D.fin 1, D.nan]] 0 AggFuncs.CUSTOM
      (some (fun a _ => Except.ok a))

/-- C5: on a detected year boundary (year differs from the tracked year and
the tracked year is not the reset marker -1) after() increments each
scenario's count exactly when its tracked maximum met or exceeded the
threshold, resets the per-year maxima before folding in the current values,
and records the new year; finish() performs the same check once more; a run
with threshold 2 and per-year maxima [1,3,2] over three years counts 2. -/
theorem C5_annual_count_threshold (th year : Int) (vals : List Int) (st : ACState)
    (hb : year ≠ st.currentYear) (h1 : st.currentYear ≠ -1) :
    ((annualCountAfter th year vals st).count
        = List.zipWith (fun c m => if th ≤ m then c + 1 else c) st.count st.currentMax
      ∧ (annualCountAfter th year vals st).currentMax
        = List.zipWith (fun m v => if m < v then v else m)
            (st.currentMax.map (fun _ => 0)) vals
      ∧ (annualCountAfter th year vals st).currentYear = year)
    ∧ (∀ (th2 : Int) (st2 : ACState), (annualCountFinish th2 st2).count
        = List.zipWith (fun c m => if th2 ≤ m then c + 1 else c) st2.count st2.currentMax)
    ∧ annualCountValues (annualCountFinish 2 (annualCountRun 2
        [(2000, [1]), (2001, [3]), (2001, [2]), (2002, [2])]
        (annualCountReset (annualCountSetup 1)))) = [2] := by
  refine ⟨?_, fun th2 st2 => rfl, ?_⟩
  · refine ⟨?_, ?_, ?_⟩ <;> simp [annualCountAfter, hb, h1]
  · have hc : (annualCountFinish 2 (annualCountRun 2
        [(2000, [1]), (2001, [3]), (2001, [2]), (2002, [2])]
        (annualCountReset (annualCountSetup 1)))).count = [2] := by decide
    simp [annualCountValues, hc]

/-- C5 witness: the boundary rule applied at a concrete state — year 2002
arrives while year 2001 is tracked with maximum 3 and threshold 2, so the
count increments from 0 to 1 and the maximum restarts from the new value. -/
theorem C5_annual_count_threshold_witness :
    (annualCountAfter 2 2002 [2] (ACState.mk [0] [3] 2001)).count = [1]
  ∧ (annualCountAfter 2 2002 [2] (ACState.mk [0] [3] 2001)).currentMax = [2]
  ∧ (annualCountAfter 2 2002 [2] (ACState.mk [0] [3] 2001)).currentYear = 2002 := by
  have h := (C5_annual_count_threshold 2 2002 [2] (ACState.mk [0] [3] 2001)
    (by decide) (by decide)).1
  refine ⟨?_, ?_, h.2.2⟩
  · rw [h.1]; decide
  · rw [h.2.1]; decide

/-- C6 counterexample: a MeanFlowNodeRecorder run of N = 2 timesteps with
per-timestep flow 1 and factor 1 accumulates 2 and divides by the final
timestep index 1, returning 2 — not the accumulated total divided by the
timestep count N, which would be 1. -/
theorem C6_counterexample_mean_flow :
    runMeanFlow 1 1 [[1], [1]] = .ok [2]
  ∧ runMeanFlow 1 1 [[1], [1]] ≠ .ok [1] := by
  have h : runMeanFlow 1 1 [[1], [1]] = .ok [2] := by
    norm_num [runMeanFlow, meanFlowAfter, constantFinishDivide, List.range_succ,
      List.replicate, List.getD_cons_zero]
  exact ⟨h, by rw [h]; norm_num⟩

/-- C6 amended: after a run of N timesteps the mean-flow and
deficit-frequency recorders divide each scenario's accumulated value by the
final timestep's zero-based index N - 1 (the value of current.index at
finish()), not by the elapsed timestep count N. -/
theorem C6_finish_divides_by_final_timestep_index
    (factor : ℚ) (ncomb : Nat) (flows : List (List ℚ)) (hf : 2 ≤ flows.length)
    (steps : List (List ℚ × List ℚ)) (hs : 2 ≤ steps.length) :
    runMeanFlow factor ncomb flows
      = .ok ((List.range ncomb).map (fun i =>
          (flows.map (fun f => f.getD i 0 * factor)).sum / ((flows.length - 1 : ℕ) : ℚ)))
  ∧ runDeficitFrequency ncomb steps
      = .ok ((List.range ncomb).map (fun i =>
          (steps.map (fun p => if 1 / 1000000 < |p.1.getD i 0 - p.2.getD i 0|
            then (1 : ℚ) else 0)).sum / ((steps.length - 1 : ℕ) : ℚ))) := by
  constructor
  · unfold runMeanFlow
    rw [replicate_eq_range_map, meanFlow_fold_eq factor flows ncomb (fun _ => 0)]
    unfold constantFinishDivide
    rw [if_neg (by omega), List.map_map]
    congr 1
    apply List.map_congr_left
    intro i _
    simp only [Function.comp_apply, zero_add]
  · unfold runDeficitFrequency
    rw [replicate_eq_range_map, deficit_fold_eq steps ncomb (fun _ => 0)]
    unfold constantFinishDivide
    rw [if_neg (by omega), List.map_map]
    congr 1
    apply List.map_congr_left
    intro i _
    simp only [Function.comp_apply, zero_add]

/-- C6 witness: a total of 4 (flows [1,1], factor 2) over N = 2 timesteps is
divided by index 1, and one deficit timestep out of two gives frequency
1/1 = 1. -/
theorem C6_finish_witness :
    runMeanFlow 2 1 [[1], [1]] = .ok [4]
  ∧ runDeficitFrequency 1 [([0], [1]), ([1], [1])] = .ok [1] := by
  obtain ⟨h1, h2⟩ := C6_finish_divides_by_final_timestep_index 2 1 [[1], [1]]
    (by norm_num) [([0], [1]), ([1], [1])] (by norm_num)
  constructor
  · rw [h1]
    norm_num [List.range_succ, List.getD_cons_zero]
  · rw [h2]
    norm_num [List.range_succ, List.getD_cons_zero]

/-- C7: AggregatedRecorder.values over a non-empty list of children combines
the children's per-scenario vectors elementwise — sum, product, mean (sum
divided by the recorder count), max and min (folds initialised to -inf and
+inf, which a first finite child always displaces), or a custom callable
applied to the stacked vectors with axis 0. -/
theorem C7_aggregated_recorder_values
    (c0 : List ℚ) (cs : List (List ℚ)) (n : Nat)
    (h0 : c0.length = n) (hcs : ∀ c ∈ cs, c.length = n)
    (uf : Option (List (List D) → Nat → List D)) :
    aggregatedRecorderValues .SUM uf ((c0 :: cs).map (List.map D.fin)) n
      = .ok ((List.range n).map (fun i =>
          D.fin (((c0 :: cs).map (fun c => c.getD i 0)).sum)))
  ∧ aggregatedRecorderValues .PRODUCT uf ((c0 :: cs).map (List.map D.fin)) n
      = .ok ((List.range n).map (fun i =>
          D.fin (((c0 :: cs).map (fun c => c.getD i 0)).prod)))
  ∧ aggregatedRecorderValues .MEAN uf ((c0 :: cs).map (List.map D.fin)) n
      = .ok ((List.range n).map (fun i =>
          D.fin (((c0 :: cs).map (fun c => c.getD i 0)).sum / ((cs.length + 1 : ℕ) : ℚ))))
  ∧ aggregatedRecorderValues .MAX uf ((c0 :: cs).map (List.map D.fin)) n
      = .ok ((List.range n).map (fun i =>
          D.fin ((cs.map (fun c => c.getD i 0)).foldl max (c0.getD i 0))))
  ∧ aggregatedRecorderValues .MIN uf ((c0 :: cs).map (List.map D.fin)) n
      = .ok ((List.range n).map (fun i =>
          D.fin ((cs.map (fun c => c.getD i 0)).foldl min (c0.getD i 0))))
  ∧ (∀ (f2 : List (List D) → Nat → List D) (ch : List (List D)) (c : List D),
      aggregatedRecorderValues .CUSTOM (some f2) (c :: ch) n = .ok (f2 (c :: ch) 0)) := by
  have hmem : ∀ c ∈ c0 :: cs, c.length = n := by
    intro c hc
    rcases List.mem_cons.mp hc with rfl | hc
    · exact h0
    · exact hcs c hc
  have hlift : ∀ i, i < n → ∀ (x : D), ∀ c ∈ c0 :: cs,
      (List.map D.fin c).getD i D.nan = D.fin (c.getD i 0) := by
    intro i hi x c hc
    exact getD_map_fin c i (by rw [hmem c hc]; exact hi)
  refine ⟨?_, ?_, ?_, ?_, ?_, fun f2 ch c => rfl⟩
  -- SUM
  · rw [aggValues_SUM uf ((c0 :: cs).map (List.map D.fin)) n rfl, replicate_eq_range_map, foldl_elemwise_range]
    congr 1
    apply List.map_congr_left
    intro i hi
    rw [List.foldl_map,
      List.foldl_ext (fun x c => dAdd x ((List.map D.fin c).getD i D.nan))
        (fun x c => dAdd x (D.fin (c.getD i 0))) (D.fin 0)
        (fun x c hc => by simp only [hlift i (List.mem_range.mp hi) x c hc]),
      foldl_dAdd_fin, foldl_add_eq_sum, zero_add]
  -- PRODUCT
  · rw [aggValues_PRODUCT uf ((c0 :: cs).map (List.map D.fin)) n rfl, replicate_eq_range_map, foldl_elemwise_range]
    congr 1
    apply List.map_congr_left
    intro i hi
    rw [List.foldl_map,
      List.foldl_ext (fun x c => dMul x ((List.map D.fin c).getD i D.nan))
        (fun x c => dMul x (D.fin (c.getD i 0))) (D.fin 1)
        (fun x c hc => by simp only [hlift i (List.mem_range.mp hi) x c hc]),
      foldl_dMul_fin, foldl_mul_eq_prod, one_mul]
  -- MEAN
  · rw [aggValues_MEAN uf ((c0 :: cs).map (List.map D.fin)) n rfl, replicate_eq_range_map, foldl_elemwise_range, List.map_map]
    congr 1
    apply List.map_congr_left
    intro i hi
    simp only [Function.comp_apply]
    rw [List.foldl_map,
      List.foldl_ext (fun x c => dAdd x ((List.map D.fin c).getD i D.nan))
        (fun x c => dAdd x (D.fin (c.getD i 0))) (D.fin 0)
        (fun x c hc => by simp only [hlift i (List.mem_range.mp hi) x c hc]),
      foldl_dAdd_fin, foldl_add_eq_sum, zero_add, List.length_map, List.length_cons]
    simp [dDivNat]
  -- MAX
  · rw [aggValues_MAX uf ((c0 :: cs).map (List.map D.fin)) n rfl, replicate_eq_range_map, foldl_elemwise_range]
    congr 1
    apply List.map_congr_left
    intro i hi
    rw [List.foldl_map,
      List.foldl_ext
        (fun x c => if dGt ((List.map D.fin c).getD i D.nan) x
          then (List.map D.fin c).getD i D.nan else x)
        (fun x c => if dGt (D.fin (c.getD i 0)) x then D.fin (c.getD i 0) else x) D.ninf
        (fun x c hc => by simp only [hlift i (List.mem_range.mp hi) x c hc]),
      List.foldl_cons, show (if dGt (D.fin (c0.getD i 0)) D.ninf then D.fin (c0.getD i 0)
        else D.ninf) = D.fin (c0.getD i 0) from rfl,
      foldl_dMaxGt_fin, List.foldl_map]
  -- MIN
  · rw [aggValues_MIN uf ((c0 :: cs).map (List.map D.fin)) n rfl, replicate_eq_range_map, foldl_elemwise_range]
    congr 1
    apply List.map_congr_left
    intro i hi
    rw [List.foldl_map,
      List.foldl_ext
        (fun x c => if dLt ((List.map D.fin c).getD i D.nan) x
          then (List.map D.fin c).getD i D.nan else x)
        (fun x c => if dLt (D.fin (c.getD i 0)) x then D.fin (c.getD i 0) else x) D.pinf
        (fun x c hc => by simp only [hlift i (List.mem_range.mp hi) x c hc]),
      List.foldl_cons, show (if dLt (D.fin (c0.getD i 0)) D.pinf then D.fin (c0.getD i 0)
        else D.pinf) = D.fin (c0.getD i 0) from rfl,
      foldl_dMinLt_fin, List.foldl_map]

/-- C7 witness: children producing [1,2] and [3,4] give [4,6] under sum and
[2,3] under mean. -/
theorem C7_aggregated_recorder_values_witness :
    aggregatedRecorderValues .SUM none [[D.fin 1, D.fin 2], [D.fin 3, D.fin 4]] 2
      = .ok [D.fin 4, D.fin 6]
  ∧ aggregatedRecorderValues .MEAN none [[D.fin 1, D.fin 2], [D.fin 3, D.fin 4]] 2
      = .ok [D.fin 2, D.fin 3] := by
  have h := C7_aggregated_recorder_values [1, 2] [[3, 4]] 2 rfl
    (by intro c hc; simp at hc; subst hc; rfl) none
  have hmap : (([1, 2] : List ℚ) :: [[3, 4]]).map (List.map D.fin)
      = [[D.fin 1, D.fin 2], [D.fin 3, D.fin 4]] := rfl
  constructor
  · have hs := h.1
    rw [hmap] at hs
    rw [hs]
    norm_num [List.range_succ, List.getD_cons_zero]
  · have hs := h.2.2.1
    rw [hmap] at hs
    rw [hs]
    norm_num [List.range_succ, List.getD_cons_zero]

/-- C4: for both rolling recorders with window w, after setup() and reset()
the aggregate stored at timestep t is the mean of the partial history of
length t+1 while t < w and of the last w samples thereafter — i.e. the mean
of the last min(t+1, w) samples — for any initial contents of the
uninitialised buffers (np.empty). -/
theorem C4_rolling_window_partial_then_full (w : Nat) (hw : 0 < w)
    (g d : Nat → ℚ) (samples : List ℚ) (t : Nat) (ht : t < samples.length) :
    (rwpRunFrom w 0 samples (rwpReset (rwpSetup g))).data t = windowMean w t samples
  ∧ (rmfRunFrom w 0 samples (rmfReset (rmfSetup d))).data t = windowMean w t samples := by
  have hrw : ∀ st : RollState, st.pos = 0 →
      (rwpRunFrom w 0 samples st).data t = windowMean w t samples := by
    intro st h0
    have happ := rwpRunFrom_data w hw samples samples [] st (by simp)
      (by simpa using h0)
      (fun p _ hp => absurd hp (Nat.not_lt_zero p))
      (fun t2 ht2 => absurd ht2 (Nat.not_lt_zero t2)) t ht
    simpa using happ
  refine ⟨hrw _ rfl, ?_⟩
  rw [rmfRunFrom_eq_rwpRunFrom]
  exact hrw _ rfl

/-- C4 witness: window 3 fed [1,2,3,4,5] with the mean aggregator stores the
per-step aggregates [1, 3/2, 2, 3, 4] (both recorders). -/
theorem C4_rolling_window_witness :
    (rwpRunFrom 3 0 [1, 2, 3, 4, 5] (rwpReset (rwpSetup (fun _ => 0)))).data 0 = 1
  ∧ (rwpRunFrom 3 0 [1, 2, 3, 4, 5] (rwpReset (rwpSetup (fun _ => 0)))).data 1 = 3 / 2
  ∧ (rwpRunFrom 3 0 [1, 2, 3, 4, 5] (rwpReset (rwpSetup (fun _ => 0)))).data 2 = 2
  ∧ (rwpRunFrom 3 0 [1, 2, 3, 4, 5] (rwpReset (rwpSetup (fun _ => 0)))).data 3 = 3
  ∧ (rwpRunFrom 3 0 [1, 2, 3, 4, 5] (rwpReset (rwpSetup (fun _ => 0)))).data 4 = 4
  ∧ (rmfRunFrom 3 0 [1, 2, 3, 4, 5] (rmfReset (rmfSetup (fun _ => 0)))).data 4 = 4 := by
  have h := fun t ht => C4_rolling_window_partial_then_full 3 (by norm_num)
    (fun _ => 0) (fun _ => 0) [1, 2, 3, 4, 5] t ht
  refine ⟨?_, ?_, ?_, ?_, ?_, ?_⟩
  · rw [(h 0 (by norm_num)).1]
    norm_num [windowMean, Finset.sum_Ico_eq_sum_range, Finset.sum_range_succ,
      List.getD_cons_zero, List.getD_cons_succ]
  · rw [(h 1 (by norm_num)).1]
    norm_num [windowMean, Finset.sum_Ico_eq_sum_range, Finset.sum_range_succ,
      List.getD_cons_zero, List.getD_cons_succ]
  · rw [(h 2 (by norm_num)).1]
    norm_num [windowMean, Finset.sum_Ico_eq_sum_range, Finset.sum_range_succ,
      List.getD_cons_zero, List.getD_cons_succ]
  · rw [(h 3 (by norm_num)).1]
    norm_num [windowMean, Finset.sum_Ico_eq_sum_range, Finset.sum_range_succ,
      List.getD_cons_zero, List.getD_cons_succ]
  · rw [(h 4 (by norm_num)).1]
    norm_num [windowMean, Finset.sum_Ico_eq_sum_range, Finset.sum_range_succ,
      List.getD_cons_zero, List.getD_cons_succ]
  · rw [(h 4 (by norm_num)).2]
    norm_num [windowMean, Finset.sum_Ico_eq_sum_range, Finset.sum_range_succ,
      List.getD_cons_zero, List.getD_cons_succ]

/-- C1: RollingMeanFlowNodeRecorder is not replay-stable.  With window 2 and
flows [1, 0, 2], the first run after setup() stores 1 at timestep 0, but a
second identical run — the class defines no reset(), so the circular-buffer
cursor (left at 1) and stale contents persist — stores 2 at timestep 0: the
first row now averages a leftover sample instead of the new one.  (Its
sibling RollingWindowParameterRecorder resets the cursor in reset() and is
replay-stable, as C4 shows for an arbitrary leftover buffer.) -/
theorem C1_rolling_mean_flow_replay_unstable :
    (rmfRunFrom 2 0 [1, 0, 2] (rmfSetup (fun _ => 0))).data 0 = 1
  ∧ (rmfRunFrom 2 0 [1, 0, 2]
      (rmfReset (rmfRunFrom 2 0 [1, 0, 2] (rmfSetup (fun _ => 0))))).data 0 = 2
  ∧ (rmfRunFrom 2 0 [1, 0, 2]
      (rmfReset (rmfRunFrom 2 0 [1, 0, 2] (rmfSetup (fun _ => 0))))).data 0
    ≠ (rmfRunFrom 2 0 [1, 0, 2] (rmfSetup (fun _ => 0))).data 0 := by
  have h1 : (rmfRunFrom 2 0 [1, 0, 2] (rmfSetup (fun _ => 0))).data 0 = 1 := by
    norm_num [rmfRunFrom, rmfAfter, rmfSetup, List.range_succ]
  have h2 : (rmfRunFrom 2 0 [1, 0, 2]
      (rmfReset (rmfRunFrom 2 0 [1, 0, 2] (rmfSetup (fun _ => 0))))).data 0 = 2 := by
    norm_num [rmfRunFrom, rmfAfter, rmfSetup, rmfReset, List.range_succ]
  refine ⟨h1, h2, ?_⟩
  rw [h1, h2]
  norm_num

/-- C10: constructing an AggregatedRecorder with neither recorder_agg_func
nor agg_func raises ValueError at construction time (the base Recorder
default never applies to the recorder-combination function); supplying
agg_func alone, or recorder_agg_func with or without agg_func, is
accepted. -/
theorem C10_aggregated_recorder_requires_agg_func :
    (∃ e, aggregatedRecorderInit none none = .error e)
  ∧ aggregatedRecorderInit none (some (.named "sum")) = .ok (.SUM, none)
  ∧ aggregatedRecorderInit none (some (.named "mean")) = .ok (.MEAN, none)
  ∧ (∀ f, aggregatedRecorderInit (some (.named "max")) f = .ok (.MAX, none)) :=
  ⟨⟨_, rfl⟩, rfl, rfl, fun _ => rfl⟩

end Pywr
